import Mathlib

/-!
Verification development for the Mindful Moments journaling / habit-tracking
page (src/script.js and the alternate variant src/unnamed/part_000).

The embedding models:
 - JSON values (`JValue`) as produced by `JSON.parse`, with JavaScript
   truthiness, property access and object-spread semantics;
 - the persisted versioned document and the `localStorage` slot (`RawStore`),
   where an unparsable stored string is the `corrupt` constructor;
 - the domain model (`Entry`, `Habit`, `AppState`) and the derived statistics
   (streak, completion rate, mood average) from `ui.updateStats` and
   `utils.calculateMoodAverage`;
 - the controller actions of the variant in src/unnamed/part_000
   (`app.handleMoodSubmit`, `app.addHabit`, `app.toggleHabit`,
   `app.deleteHabit`), with storage-write success threaded as explicit
   booleans (`localStorage.setItem` succeeding or throwing, e.g. on quota).

Numbers are modelled as integers / rationals (all values appearing here are
exact in IEEE doubles at the relevant scales); `Date` calendar days are
modelled as floor-division day buckets of epoch-millisecond timestamps.
-/

namespace MindfulMoments

/-- JSON values as produced by `JSON.parse` (numbers restricted to integers,
which covers every numeric value this program stores: ids, timestamps,
version). Objects are ordered field lists, as JavaScript objects are. -/
inductive JValue where
  | null
  | bool (b : Bool)
  | num (n : Int)
  | str (s : String)
  | arr (elems : List JValue)
  | obj (fields : List (String × JValue))

/-- JavaScript truthiness of a parsed JSON value: `null`, `false`, `0` and
the empty string are falsy; arrays and objects are always truthy. -/
def truthy : JValue → Bool
  | .null => false
  | .bool b => b
  | .num n => n != 0
  | .str s => s != ""
  | .arr _ => true
  | .obj _ => true

/-- Truthiness of a possibly-absent value: `undefined` is falsy. -/
def truthyO : Option JValue → Bool
  | none => false
  | some v => truthy v

/-- JavaScript property read `v[k]`: on an object the last binding for the
key wins (as after `JSON.parse` of duplicate keys); on anything else the
result is absent (`undefined`; the `null` case throws in JavaScript, but
every call site wraps the access in `try`/`catch` whose handler behaves
exactly like the absent case, so absence is the faithful observable). -/
def jget : JValue → String → Option JValue
  | .obj fields, k => fields.reverse.lookup k
  | _, _ => none

/-- Object-spread update `{...fields, k: v}`: if the key is present its
binding is replaced in place, otherwise the binding is appended. -/
def setKey (fields : List (String × JValue)) (k : String) (v : JValue) :
    List (String × JValue) :=
  if fields.any (fun p => p.1 == k) then
    fields.map (fun p => if p.1 == k then (k, v) else p)
  else
    fields ++ [(k, v)]

/-- The fields of a value when spread into an object literal: non-objects
contribute no fields (primitive spread). -/
def objFields : JValue → List (String × JValue)
  | .obj fields => fields
  | _ => []

/-- A journal entry: `{ id, mood, journal, timestamp }`. Ids are opaque
identifiers (numeric `Date.now()` in one variant, a uuid string in the
other); they are modelled as integers. -/
structure Entry where
  id : Int
  mood : String
  journal : String
  timestamp : Int
deriving DecidableEq, Repr

/-- A habit: `{ id, text, completed, createdAt }`. -/
structure Habit where
  id : Int
  text : String
  completed : Bool
  createdAt : Int
deriving DecidableEq, Repr

/-- The in-memory domain model held in `state`. -/
structure AppState where
  journalEntries : List Entry
  habits : List Habit
deriving DecidableEq, Repr

/-- The utils.sanitizeInput escaping of the src/unnamed/part_000 variant:
replace every angle bracket by its HTML entity. -/
def escapeAngles (s : String) : String :=
  (s.replace "<" "&lt;").replace ">" "&gt;"

/-- The utils.sanitizeInput function: a non-string input (modelled as any
non-string JSON value) yields the empty string; a string is escaped. -/
def sanitizeInput : JValue → String
  | .str s => escapeAngles s
  | _ => ""

/-- The mood weight table of utils.calculateMoodAverage, as the literal
object in the source. -/
def moodValues : List (String × ℚ) :=
  [("Sad", 1), ("Stressed", 2), ("Anxious", 3), ("Neutral", 4),
   ("Grateful", 5), ("Happy", 6), ("Excited", 7)]

/-- Round a rational to the nearest integer, ties to the even one: the
significand rounding IEEE 754 round-to-nearest-even performs. -/
def roundHalfEven (q : ℚ) : ℤ :=
  if q - ⌊q⌋ < 1 / 2 then ⌊q⌋
  else if (1 : ℚ) / 2 < q - ⌊q⌋ then ⌊q⌋ + 1
  else if ⌊q⌋ % 2 = 0 then ⌊q⌋ else ⌊q⌋ + 1

/-- IEEE-754 binary64 rounding of an exact rational: the nearest value with
a 53-bit significand (ties to even), which is what every ECMAScript
arithmetic operation produces. Models the normal range (no overflow to
infinity, no subnormal truncation), which covers every magnitude this
program's statistics can reach. -/
def fl (q : ℚ) : ℚ :=
  if q = 0 then 0
  else
    (roundHalfEven (q / 2 ^ (Int.log 2 |q| - 52)) : ℚ) * 2 ^ (Int.log 2 |q| - 52)

/-- The property names every object literal inherits from Object.prototype:
reading one of these off the moodValues table yields the inherited (truthy)
function or object, not undefined. -/
def protoKeys : List String :=
  ["constructor", "hasOwnProperty", "isPrototypeOf", "propertyIsEnumerable",
   "toLocaleString", "toString", "valueOf", "__proto__",
   "__defineGetter__", "__defineSetter__", "__lookupGetter__", "__lookupSetter__"]

/-- Whether a mood label hits an inherited Object.prototype property. -/
def isProtoKey (m : String) : Bool := protoKeys.contains m

/-- The observable result of utils.calculateMoodAverage: the dash sentinel
for an empty list, NaN when an inherited-property lookup poisons the
accumulator, or the finite binary64 average (whose toFixed(1) rendering is
what the page displays). -/
inductive MoodAverage where
  | dash
  | nan
  | val (q : ℚ)
deriving DecidableEq, Repr

/-- toFixed(1) of a finite double, in tenths: the integer n that minimizes
the distance from n/10 to the value, ties to the larger n. A tie would need
the value to equal (2m+1)/20, which is never a dyadic rational, so on
actual doubles round-half-up is exact and unambiguous. -/
def toFixed1 (q : ℚ) : ℤ := round (10 * q)

/-- The mood average of utils.calculateMoodAverage. Empty list: the dash
sentinel. The reduce adds `moodValues[entry.mood] || 4` for each entry:
an own key yields its weight, an unknown plain label yields undefined and
the default 4 (no weight is falsy), but a label naming an inherited
Object.prototype property yields the inherited truthy function or object —
`+` then turns the accumulator into a string, whose final division is NaN.
Otherwise every addition of the integer weights is exact in binary64 (the
partial sums stay far below 2^53 for any JavaScript array, whose length is
below 2^32), so the only rounding is the final division: one `fl`. -/
def calculateMoodAverage (entries : List Entry) : MoodAverage :=
  if entries.length = 0 then .dash
  else if entries.any (fun e => isProtoKey e.mood) then .nan
  else
    .val (fl ((entries.foldl
      (fun total entry => total + ((moodValues.lookup entry.mood).getD 4)) 0)
      / entries.length))

/-- The completion-rate computation in ui.updateStats:
`Math.round((completedHabits / habits.length) * 100)` guarded by
`habits.length > 0`, else `0`. The counts are exact as doubles (array
lengths are below 2^32), the division and the multiplication each perform
one binary64 rounding (`fl`), and `Math.round` rounds the resulting
double's exact value half toward positive infinity, which is Mathlib
`round` (exact for doubles below 2^52, where integers are representable). -/
def completionRate (habits : List Habit) : ℤ :=
  let completedHabits := (habits.filter (fun habit => habit.completed)).length
  if habits.length > 0 then
    round (fl (fl ((completedHabits : ℚ) / habits.length) * 100))
  else 0

/-- Milliseconds per calendar day. -/
def msPerDay : Int := 86400000

/-- The calendar day of an epoch-millisecond timestamp, modelling
`new Date(ts).toDateString()` equality: two timestamps render the same date
string exactly when they fall in the same day bucket. Floor division (Lean
integer division) buckets correctly. -/
def dayOf (t : Int) : Int := t / msPerDay

/-- Stable insertion of an entry into a newest-first sorted list: the entry
goes before the first strictly older element and after every element of
equal timestamp, preserving the original relative order of ties. -/
def insertByTsDesc (e : Entry) : List Entry → List Entry
  | [] => [e]
  | x :: xs =>
    if x.timestamp ≤ e.timestamp then e :: x :: xs else x :: insertByTsDesc e xs

/-- The newest-first sort `[...entries].sort((a, b) => b.timestamp - a.timestamp)`
of ui.updateStats. JavaScript `Array.prototype.sort` is required to be
stable, and a stable sort's output is uniquely determined by the comparator
(a total preorder on timestamps), so stable insertion sort is an exact
model of it. -/
def sortNewestFirst : List Entry → List Entry
  | [] => []
  | e :: rest => insertByTsDesc e (sortNewestFirst rest)

/-- The streak loop body of ui.updateStats over the newest-first entry list:
compare the entry's calendar day with the walking `currentDate`; on a match
count it and step one day back, otherwise stop. -/
def streakGo : List Int → Int → Nat
  | [], _ => 0
  | d :: rest, cur => if d = cur then streakGo rest (cur - 1) + 1 else 0

/-- The current-streak statistic of ui.updateStats, as a function of the
entry list and the current time `now`. -/
def currentStreak (entries : List Entry) (now : Int) : Nat :=
  streakGo ((sortNewestFirst entries).map (fun e => dayOf e.timestamp)) (dayOf now)

/-- Whether some entry falls on calendar day `d` (the spec's notion of a day
"for which at least one entry exists"). -/
def hasEntryOn (entries : List Entry) (d : Int) : Bool :=
  entries.any (fun e => dayOf e.timestamp == d)

/-- The localStorage slot holding the key `mindfulMomentsData`: empty
(`getItem` returns null), holding text that is not valid JSON (`corrupt`),
or holding the serialization of a JSON value. -/
inductive RawStore where
  | empty
  | corrupt
  | value (v : JValue)

/-- The supported schema version (`STORAGE_VERSION = 1`). -/
def STORAGE_VERSION : Int := 1

/-- storage.getData: null when the slot is empty; on a parse failure the
catch handler returns null; a parsed value is returned only when its
`version` property is strictly equal to `STORAGE_VERSION` (a missing or
non-numeric property never equals the number 1), else null. -/
def getData : RawStore → Option JValue
  | .empty => none
  | .corrupt => none
  | .value v =>
    match jget v "version" with
    | some (.num n) => if n = STORAGE_VERSION then some v else none
    | _ => none

/-- The versioned document `{ version: STORAGE_VERSION, timestamp: Date.now(),
data }` that storage.setData wraps around its argument. -/
def versionedDoc (d : JValue) (now : Int) : JValue :=
  .obj [("version", .num STORAGE_VERSION), ("timestamp", .num now), ("data", d)]

/-- storage.setData of the src/unnamed/part_000 variant: attempt to write the
versioned wrapper; when `localStorage.setItem` throws (modelled by the `ok`
flag being false, e.g. quota exceeded) the slot is unchanged and false is
returned, otherwise the slot holds the new document and true is returned. -/
def setData (store : RawStore) (d : JValue) (now : Int) (ok : Bool) :
    RawStore × Bool :=
  if ok then (.value (versionedDoc d now), true) else (store, false)

/-- The expression `this.getData()?.data || {}` used by the specific
setters: the current document's `data` member when present and truthy, else
an empty object. -/
def currentDataOf (store : RawStore) : JValue :=
  match (getData store).bind (fun v => jget v "data") with
  | some v => if truthy v then v else .obj []
  | none => .obj []

/-- storage.setJournalEntries / storage.setHabits: spread the current data
object, overwrite the one collection field, and write through setData. -/
def setDataField (store : RawStore) (k : String) (v : JValue) (now : Int)
    (ok : Bool) : RawStore × Bool :=
  setData store (.obj (setKey (objFields (currentDataOf store)) k v)) now ok

/-- The expression `stored?.data?.journalEntries || []` (and the habits
analogue) used by the specific getters. -/
def getDataField (store : RawStore) (k : String) : JValue :=
  match (getData store).bind (fun v => jget v "data") |>.bind (fun d => jget d k) with
  | some v => if truthy v then v else .arr []
  | none => .arr []

/-- storage.exportData serializes `this.getData()` as pretty-printed JSON
for download; at the JSON-value level the exported byte stream is exactly
the current document (an empty or rejected slot exports the JSON text
"null"). Parsing the exported stream back recovers this value. -/
def exportData (store : RawStore) : JValue :=
  (getData store).getD .null

/-- storage.importData on an already-delivered file content: `none` input is
a byte stream that is not valid JSON (`JSON.parse` throws, the promise
rejects). A parsed value is accepted exactly when both `data.version` and
`data.data` are truthy (a `null` payload's property access throws and is
caught by the same rejection path, which coincides with the falsy-absent
case); on acceptance `setData(data.data)` rewrites the slot (its own
success flag is ignored by the source) and the promise resolves with the
imported `data` member, otherwise the promise rejects and the slot is
untouched. -/
def importData (parsed : Option JValue) (store : RawStore) (now : Int)
    (ok : Bool) : RawStore × Option JValue :=
  match parsed with
  | none => (store, none)
  | some v =>
    if truthyO (jget v "version") && truthyO (jget v "data") then
      match jget v "data" with
      | some d => ((setData store d now ok).1, some d)
      | none => (store, none)
    else (store, none)

/-- JSON encoding of a journal entry as stored in the document. -/
def encodeEntry (e : Entry) : JValue :=
  .obj [("id", .num e.id), ("mood", .str e.mood), ("journal", .str e.journal),
        ("timestamp", .num e.timestamp)]

/-- JSON encoding of a habit as stored in the document. -/
def encodeHabit (h : Habit) : JValue :=
  .obj [("id", .num h.id), ("text", .str h.text),
        ("completed", .bool h.completed), ("createdAt", .num h.createdAt)]

/-- JSON encoding of the entries collection. -/
def encodeEntries (es : List Entry) : JValue := .arr (es.map encodeEntry)

/-- JSON encoding of the habits collection. -/
def encodeHabits (hs : List Habit) : JValue := .arr (hs.map encodeHabit)

/-- The `data` object `{ journalEntries, habits }` of a full document. -/
def dataObj (es : List Entry) (hs : List Habit) : JValue :=
  .obj [("journalEntries", encodeEntries es), ("habits", encodeHabits hs)]

/-- Decoding a stored journal entry (partial inverse of `encodeEntry`). -/
def decodeEntry : JValue → Option Entry
  | .obj [("id", .num i), ("mood", .str m), ("journal", .str j),
          ("timestamp", .num t)] =>
    some { id := i, mood := m, journal := j, timestamp := t }
  | _ => none

/-- Decoding a stored habit (partial inverse of `encodeHabit`). -/
def decodeHabit : JValue → Option Habit
  | .obj [("id", .num i), ("text", .str t), ("completed", .bool c),
          ("createdAt", .num ca)] =>
    some { id := i, text := t, completed := c, createdAt := ca }
  | _ => none

/-- Decoding a list of stored journal entries. -/
def decodeEntryList : List JValue → Option (List Entry)
  | [] => some []
  | v :: rest =>
    match decodeEntry v, decodeEntryList rest with
    | some e, some es => some (e :: es)
    | _, _ => none

/-- Decoding a list of stored habits. -/
def decodeHabitList : List JValue → Option (List Habit)
  | [] => some []
  | v :: rest =>
    match decodeHabit v, decodeHabitList rest with
    | some h, some hs => some (h :: hs)
    | _, _ => none

/-- Decoding the entries collection. -/
def decodeEntries : JValue → Option (List Entry)
  | .arr elems => decodeEntryList elems
  | _ => none

/-- Decoding the habits collection. -/
def decodeHabits : JValue → Option (List Habit)
  | .arr elems => decodeHabitList elems
  | _ => none

/-- app.saveData of the src/unnamed/part_000 variant: write the entries,
then the habits, through the specific setters; report success only when
both writes succeeded. The two write attempts may fail independently
(`ok1`, `ok2`). -/
def saveData (st : AppState) (store : RawStore) (now : Int) (ok1 ok2 : Bool) :
    RawStore × Bool :=
  let r1 := setDataField store "journalEntries" (encodeEntries st.journalEntries) now ok1
  let r2 := setDataField r1.1 "habits" (encodeHabits st.habits) now ok2
  (r2.1, r1.2 && r2.2)

/-- app.handleMoodSubmit of the src/unnamed/part_000 variant: an empty mood
is rejected with no state change; otherwise the new entry is unshifted onto
the in-memory list, the document is persisted, and on persistence failure
the entry is shifted back off (rollback). Returns the new in-memory state,
the new store, and whether the submission was saved. -/
def handleMoodSubmit (st : AppState) (store : RawStore) (mood journal : String)
    (newId now : Int) (ok1 ok2 : Bool) : AppState × RawStore × Bool :=
  if mood = "" then (st, store, false)
  else
    let entry : Entry :=
      { id := newId, mood := mood, journal := sanitizeInput (.str journal),
        timestamp := now }
    let st' : AppState := { st with journalEntries := entry :: st.journalEntries }
    let saved := saveData st' store now ok1 ok2
    if saved.2 then (st', saved.1, true)
    else ({ st' with journalEntries := st'.journalEntries.tail }, saved.1, false)

/-- app.addHabit of the src/unnamed/part_000 variant: blank habit text (after
trimming) is rejected with no state change; otherwise the new habit is
pushed onto the in-memory list, the document is persisted, and on
persistence failure the habit is popped back off (rollback). -/
def addHabit (st : AppState) (store : RawStore) (text : String)
    (newId now : Int) (ok1 ok2 : Bool) : AppState × RawStore × Bool :=
  if text.trim = "" then (st, store, false)
  else
    let habit : Habit :=
      { id := newId, text := sanitizeInput (.str text.trim), completed := false,
        createdAt := now }
    let st' : AppState := { st with habits := st.habits ++ [habit] }
    let saved := saveData st' store now ok1 ok2
    if saved.2 then (st', saved.1, true)
    else ({ st' with habits := st'.habits.dropLast }, saved.1, false)

/-- The in-place flip performed by app.toggleHabit: `state.habits.find` then
`habit.completed = !habit.completed` mutates the first habit carrying the
id and nothing else. -/
def toggleHabitList : List Habit → Int → List Habit
  | [], _ => []
  | h :: rest, id =>
    if h.id = id then { h with completed := !h.completed } :: rest
    else h :: toggleHabitList rest id

/-- app.toggleHabit: when no habit carries the id nothing happens; otherwise
the flag is flipped in memory and the document is persisted — the save
result is ignored, so a persistence failure leaves the flipped flag in
memory. -/
def toggleHabit (st : AppState) (store : RawStore) (id : Int) (now : Int)
    (ok1 ok2 : Bool) : AppState × RawStore :=
  match st.habits.find? (fun h => h.id == id) with
  | none => (st, store)
  | some _ =>
    let st' : AppState := { st with habits := toggleHabitList st.habits id }
    ((saveData st' store now ok1 ok2).1, st').swap

/-- app.deleteHabit: when no habit carries the id, or the user does not
confirm, nothing happens; otherwise every habit carrying the id is filtered
out of memory and the document is persisted — the save result is ignored,
so a persistence failure leaves the deletion in memory. -/
def deleteHabit (st : AppState) (store : RawStore) (id : Int)
    (confirmed : Bool) (now : Int) (ok1 ok2 : Bool) : AppState × RawStore :=
  match st.habits.find? (fun h => h.id == id) with
  | none => (st, store)
  | some _ =>
    if confirmed then
      let st' : AppState := { st with habits := st.habits.filter (fun h => h.id != id) }
      ((saveData st' store now ok1 ok2).1, st').swap
    else (st, store)

/-- Modelled from the spec: the mood scale exactly as the specification
enumerates it — Sad=1, Stressed=2, Anxious=3, Neutral=4, Grateful=5,
Happy=6, Excited=7, any other label weighted 4. Used to compare the code's
lookup-table-with-default against the spec's wording. -/
def specMoodWeight (m : String) : ℚ :=
  if m = "Sad" then 1
  else if m = "Stressed" then 2
  else if m = "Anxious" then 3
  else if m = "Neutral" then 4
  else if m = "Grateful" then 5
  else if m = "Happy" then 6
  else if m = "Excited" then 7
  else 4

/- ------------------------------------------------------------------ -/
/- Helper lemmas -/
/- ------------------------------------------------------------------ -/

theorem lookup_moodValues_eq_specMoodWeight (m : String) :
    ((moodValues.lookup m).getD 4) = specMoodWeight m := by
  unfold specMoodWeight
  split_ifs <;> simp [moodValues, List.lookup, beq_eq_decide, *]

theorem foldl_weights (w : Entry → ℚ) (es : List Entry) (a : ℚ) :
    es.foldl (fun total entry => total + w entry) a = a + (es.map w).sum := by
  induction es generalizing a with
  | nil => simp
  | cons e rest ih =>
      simp only [List.foldl_cons, List.map_cons, List.sum_cons, ih]
      ring

/- ------------------------------------------------------------------ -/
/- Claim theorems -/
/- ------------------------------------------------------------------ -/

/-- C9: utils.sanitizeInput returns the empty string on every input value
that is not a string, and on a string input returns a string (the escaped
text); it is total over all input types at the public interface. -/
theorem sanitizeInput_total (v : JValue) :
    ((∀ s, v ≠ JValue.str s) → sanitizeInput v = "") ∧
    (∀ s, sanitizeInput (JValue.str s) = escapeAngles s) := by
  constructor
  · intro hne
    cases v <;> first
      | rfl
      | exact absurd rfl (hne _)
  · intro s
    rfl

/-- Witness for C9 at the concrete non-string input `5` and the concrete
string input "a<b". -/
theorem sanitizeInput_total_witness :
    sanitizeInput (JValue.num 5) = "" ∧
    sanitizeInput (JValue.str "a<b") = escapeAngles "a<b" :=
  ⟨(sanitizeInput_total (JValue.num 5)).1 (fun _ h => JValue.noConfusion h),
   (sanitizeInput_total (JValue.num 5)).2 "a<b"⟩

theorem log2_eq_of {r : ℚ} {e : ℤ} (hr : 0 < r)
    (hlow : (2 : ℚ) ^ e ≤ r) (hhigh : r < 2 ^ (e + 1)) : Int.log 2 r = e := by
  have hb : 1 < (2 : ℕ) := by norm_num
  have hcast : ((2 : ℕ) : ℚ) = 2 := by norm_num
  have h1 : e ≤ Int.log 2 r := by
    rw [← Int.zpow_le_iff_le_log hb hr, hcast]
    exact hlow
  have h2 : Int.log 2 r < e + 1 := by
    rw [← Int.lt_zpow_iff_log_lt hb hr, hcast]
    exact hhigh
  omega

theorem roundHalfEven_of_lt (q : ℚ) (f : ℤ) (h1 : (f : ℚ) ≤ q)
    (h2 : q < (f : ℚ) + 1 / 2) : roundHalfEven q = f := by
  have hfl : ⌊q⌋ = f := by
    rw [Int.floor_eq_iff]
    exact ⟨h1, by linarith⟩
  unfold roundHalfEven
  rw [hfl, if_pos]
  linarith

theorem fl_eval (q : ℚ) (e d f : ℤ) (hq : q ≠ 0) (hd : e - 52 = d)
    (hlow : (2 : ℚ) ^ e ≤ |q|) (hhigh : |q| < 2 ^ (e + 1))
    (hf : (f : ℚ) ≤ q / 2 ^ d) (hf2 : q / 2 ^ d < (f : ℚ) + 1 / 2) :
    fl q = (f : ℚ) * 2 ^ d := by
  have habs : 0 < |q| := abs_pos.mpr hq
  have hlog : Int.log 2 |q| = e := log2_eq_of habs hlow hhigh
  unfold fl
  rw [if_neg hq, hlog, hd, roundHalfEven_of_lt _ f hf hf2]

theorem calculateMoodAverage_nan (es : List Entry) (hne : es ≠ [])
    (hsome : ∃ e ∈ es, isProtoKey e.mood = true) :
    calculateMoodAverage es = MoodAverage.nan := by
  have hlen : es.length ≠ 0 := by simpa using hne
  obtain ⟨e, he, hp⟩ := hsome
  have hany : es.any (fun e => isProtoKey e.mood) = true :=
    List.any_eq_true.mpr ⟨e, he, hp⟩
  simp [calculateMoodAverage, hlen, hany]

theorem calculateMoodAverage_val (es : List Entry) (hne : es ≠ [])
    (hall : ∀ e ∈ es, isProtoKey e.mood = false) :
    calculateMoodAverage es =
      MoodAverage.val (fl ((es.map (fun e => specMoodWeight e.mood)).sum / es.length)) := by
  have hlen : es.length ≠ 0 := by simpa using hne
  have hany : es.any (fun e => isProtoKey e.mood) = false := by
    rw [Bool.eq_false_iff, ne_eq, List.any_eq_true]
    rintro ⟨e, he, hp⟩
    rw [hall e he] at hp
    simp at hp
  simp only [calculateMoodAverage, hlen, if_false, hany, Bool.false_eq_true,
    lookup_moodValues_eq_specMoodWeight]
  rw [foldl_weights (fun e => specMoodWeight e.mood) es 0, zero_add]

/-- C3 counterexample: "any unrecognized mood label is weighted 4" fails.
A single entry whose mood is "constructor" is unrecognized, yet
`moodValues[entry.mood]` retrieves the inherited Object constructor
(truthy, so the `|| 4` default never applies), the accumulator is poisoned
and the program reports NaN — not the weight-4 mean. And even without
prototype labels the displayed value diverges from the exact mean rounded
to one decimal place: 11 Sad and 9 Stressed entries have exact mean
29/20 = 1.45, whose one-decimal report is 1.5, but the binary64 mean is
6530219459687219 * 2^-52 = 1.44999999999999995… and toFixed(1) shows 1.4. -/
theorem calculateMoodAverage_cex :
    calculateMoodAverage
      [{ id := 1, mood := "constructor", journal := "", timestamp := 0 }]
      = MoodAverage.nan ∧
    MoodAverage.nan ≠ MoodAverage.val 4 ∧
    calculateMoodAverage
      (List.replicate 11 { id := 1, mood := "Sad", journal := "", timestamp := 0 } ++
       List.replicate 9 { id := 2, mood := "Stressed", journal := "", timestamp := 0 })
      = MoodAverage.val ((6530219459687219 : ℚ) * 2 ^ (-(52 : ℤ))) ∧
    toFixed1 ((6530219459687219 : ℚ) * 2 ^ (-(52 : ℤ))) = 14 ∧
    toFixed1 ((29 : ℚ) / 20) = 15 := by
  refine ⟨?_, by simp, ?_, ?_, ?_⟩
  · exact calculateMoodAverage_nan _ (by simp) ⟨_, List.mem_singleton_self _, by decide⟩
  · have hval := calculateMoodAverage_val
      (List.replicate 11 { id := 1, mood := "Sad", journal := "", timestamp := 0 } ++
       List.replicate 9 { id := 2, mood := "Stressed", journal := "", timestamp := 0 })
      (by simp) (by decide)
    rw [hval]
    have hsum : (((List.replicate 11
      ({ id := 1, mood := "Sad", journal := "", timestamp := 0 } : Entry) ++
       List.replicate 9
         ({ id := 2, mood := "Stressed", journal := "", timestamp := 0 } : Entry))).map
        (fun e => specMoodWeight e.mood)).sum = (29 : ℚ) := by
      norm_num [List.map_replicate, List.sum_replicate, smul_eq_mul,
        show specMoodWeight "Sad" = (1 : ℚ) from rfl,
        show specMoodWeight "Stressed" = (2 : ℚ) from rfl]
    have hlen : ((List.replicate 11
      ({ id := 1, mood := "Sad", journal := "", timestamp := 0 } : Entry) ++
       List.replicate 9
         ({ id := 2, mood := "Stressed", journal := "", timestamp := 0 } : Entry))).length
        = 20 := by decide
    rw [hsum, hlen]
    have hfl : fl ((29 : ℚ) / 20) = (6530219459687219 : ℚ) * 2 ^ (-(52 : ℤ)) :=
      fl_eval ((29 : ℚ) / 20) 0 (-(52 : ℤ)) 6530219459687219 (by norm_num) (by norm_num)
        (by rw [abs_of_pos (by norm_num)]; norm_num)
        (by rw [abs_of_pos (by norm_num)]; norm_num)
        (by norm_num) (by norm_num)
    rw [show ((20 : ℕ) : ℚ) = 20 by norm_num, hfl]
  · unfold toFixed1
    rw [round_eq, Int.floor_eq_iff]
    norm_num
  · unfold toFixed1
    rw [round_eq, Int.floor_eq_iff]
    norm_num

/-- C3 (amended): utils.calculateMoodAverage yields the no-data sentinel on
the empty entry list; when some entry's mood label names an inherited
Object.prototype property, the lookup returns the inherited truthy value,
the accumulator is poisoned and the result is NaN; otherwise the result is
the binary64 mean — the exact integer sum of the weights Sad=1, Stressed=2,
Anxious=3, Neutral=4, Grateful=5, Happy=6, Excited=7 (any other
unrecognized label weighted 4, `specMoodWeight`) divided by the entry count
with one binary64 rounding — whose toFixed(1) rendering is displayed,
diverging from the exact mean at display precision for means like 29/20. -/
theorem calculateMoodAverage_spec (es : List Entry) :
    calculateMoodAverage [] = MoodAverage.dash ∧
    (es ≠ [] → (∃ e ∈ es, isProtoKey e.mood = true) →
      calculateMoodAverage es = MoodAverage.nan) ∧
    (es ≠ [] → (∀ e ∈ es, isProtoKey e.mood = false) →
      calculateMoodAverage es =
        MoodAverage.val (fl ((es.map (fun e => specMoodWeight e.mood)).sum / es.length))) :=
  ⟨rfl, calculateMoodAverage_nan es, calculateMoodAverage_val es⟩

/-- Witness for C3 at the spec's own test vector: entries with moods Happy
and Sad (neither an inherited property name) average to fl((6+1)/2) = 3.5,
which binary64 represents exactly. -/
theorem calculateMoodAverage_spec_witness :
    calculateMoodAverage
      [{ id := 1, mood := "Happy", journal := "", timestamp := 0 },
       { id := 2, mood := "Sad", journal := "", timestamp := 1 }]
      = MoodAverage.val (7 / 2) := by
  have h := (calculateMoodAverage_spec
      [{ id := 1, mood := "Happy", journal := "", timestamp := 0 },
       { id := 2, mood := "Sad", journal := "", timestamp := 1 }]).2.2 (by simp) (by decide)
  rw [h]
  have hmean : (([({ id := 1, mood := "Happy", journal := "", timestamp := 0 } : Entry),
      { id := 2, mood := "Sad", journal := "", timestamp := 1 }].map
        (fun e => specMoodWeight e.mood)).sum /
      (([{ id := 1, mood := "Happy", journal := "", timestamp := 0 },
         { id := 2, mood := "Sad", journal := "", timestamp := 1 }] : List Entry).length : ℚ))
      = 7 / 2 := by
    norm_num [show specMoodWeight "Happy" = (6 : ℚ) from rfl,
              show specMoodWeight "Sad" = (1 : ℚ) from rfl]
  rw [hmean]
  have hfl : fl ((7 : ℚ) / 2) = 7 / 2 := by
    have h' := fl_eval ((7 : ℚ) / 2) 1 (-(51 : ℤ)) 7881299347898368 (by norm_num) (by norm_num)
      (by rw [abs_of_pos (by norm_num)]; norm_num)
      (by rw [abs_of_pos (by norm_num)]; norm_num)
      (by norm_num) (by norm_num)
    rw [h']
    norm_num
  rw [hfl]

/-- C4 counterexample: the completion rate is not round of the exact
quotient: with 40 habits of which 23 are completed, (23/40)*100 evaluated
in binary64 doubles is 8092405580431359 * 2^-47 = 57.49999999999999…, which
Math.round takes to 57, while round of the exact 57.5 is 58. -/
theorem completionRate_float_cex :
    ((List.replicate 23 { id := 1, text := "a", completed := true, createdAt := 0 } ++
      List.replicate 17 { id := 2, text := "b", completed := false, createdAt := 0 }
      : List Habit)).length = 40 ∧
    ((List.replicate 23 { id := 1, text := "a", completed := true, createdAt := 0 } ++
      List.replicate 17 { id := 2, text := "b", completed := false, createdAt := 0 }
      : List Habit)).countP (fun h => h.completed) = 23 ∧
    completionRate
      (List.replicate 23 { id := 1, text := "a", completed := true, createdAt := 0 } ++
       List.replicate 17 { id := 2, text := "b", completed := false, createdAt := 0 }) = 57 ∧
    round ((23 : ℚ) / 40 * 100) = 58 := by
  refine ⟨by decide, by decide, ?_, ?_⟩
  · have hfilter : (((List.replicate 23
        ({ id := 1, text := "a", completed := true, createdAt := 0 } : Habit) ++
        List.replicate 17
          ({ id := 2, text := "b", completed := false, createdAt := 0 } : Habit))).filter
          (fun habit => habit.completed)).length = 23 := by decide
    have hlen : ((List.replicate 23
        ({ id := 1, text := "a", completed := true, createdAt := 0 } : Habit) ++
        List.replicate 17
          ({ id := 2, text := "b", completed := false, createdAt := 0 } : Habit))).length = 40 := by
      decide
    simp only [completionRate, hfilter, hlen]
    rw [if_pos (by norm_num)]
    have hfl1 : fl (((23 : ℕ) : ℚ) / ((40 : ℕ) : ℚ))
        = (5179139571476070 : ℚ) * 2 ^ (-(53 : ℤ)) := by
      rw [show ((23 : ℕ) : ℚ) = 23 by norm_num, show ((40 : ℕ) : ℚ) = 40 by norm_num]
      exact fl_eval ((23 : ℚ) / 40) (-1) (-(53 : ℤ)) 5179139571476070 (by norm_num)
        (by norm_num)
        (by rw [abs_of_pos (by norm_num)]; norm_num)
        (by rw [abs_of_pos (by norm_num)]; norm_num)
        (by norm_num) (by norm_num)
    rw [hfl1]
    have hfl2 : fl ((5179139571476070 : ℚ) * 2 ^ (-(53 : ℤ)) * 100)
        = (8092405580431359 : ℚ) * 2 ^ (-(47 : ℤ)) :=
      fl_eval _ 5 (-(47 : ℤ)) 8092405580431359 (by norm_num) (by norm_num)
        (by rw [abs_of_pos (by norm_num)]; norm_num)
        (by rw [abs_of_pos (by norm_num)]; norm_num)
        (by norm_num) (by norm_num)
    rw [hfl2, round_eq, Int.floor_eq_iff]
    norm_num
  · rw [round_eq, Int.floor_eq_iff]
    norm_num

/-- C4 (amended): the completion rate of ui.updateStats is 0 for an empty
habit list (no division by zero) and otherwise Math.round of the IEEE
binary64 evaluation of (completed / total) * 100 — one rounding per
arithmetic operation — which can differ from round of the exact quotient,
as at 23 completed of 40. -/
theorem completionRate_spec (hs : List Habit) :
    completionRate [] = 0 ∧
    (hs ≠ [] → completionRate hs =
      round (fl (fl ((hs.countP (fun h => h.completed) : ℚ) / hs.length) * 100))) := by
  constructor
  · rfl
  · intro hne
    have hlen : 0 < hs.length := List.length_pos.mpr hne
    simp [completionRate, hlen, List.countP_eq_length_filter]

/-- Witness for C4 at the spec's own test vector: two habits, one
completed, give a rate of 50 (1/2 and 50 are exactly representable, so the
double computation is exact here). -/
theorem completionRate_spec_witness :
    completionRate
      [{ id := 1, text := "a", completed := true, createdAt := 0 },
       { id := 2, text := "b", completed := false, createdAt := 0 }] = 50 := by
  have h := (completionRate_spec
      [{ id := 1, text := "a", completed := true, createdAt := 0 },
       { id := 2, text := "b", completed := false, createdAt := 0 }]).2 (by simp)
  rw [h]
  have hc : ([{ id := 1, text := "a", completed := true, createdAt := 0 },
      { id := 2, text := "b", completed := false, createdAt := 0 }] : List Habit).countP
        (fun h => h.completed) = 1 := by decide
  have hl : ([{ id := 1, text := "a", completed := true, createdAt := 0 },
      { id := 2, text := "b", completed := false, createdAt := 0 }] : List Habit).length = 2 :=
    rfl
  rw [hc, hl]
  have hfl1 : fl (((1 : ℕ) : ℚ) / ((2 : ℕ) : ℚ)) = 1 / 2 := by
    rw [show ((1 : ℕ) : ℚ) = 1 by norm_num, show ((2 : ℕ) : ℚ) = 2 by norm_num]
    have h' := fl_eval ((1 : ℚ) / 2) (-1) (-(53 : ℤ)) 4503599627370496 (by norm_num)
      (by norm_num)
      (by rw [abs_of_pos (by norm_num)]; norm_num)
      (by rw [abs_of_pos (by norm_num)]; norm_num)
      (by norm_num) (by norm_num)
    rw [h']
    norm_num
  rw [hfl1]
  have hfl2 : fl ((1 : ℚ) / 2 * 100) = 50 := by
    have h' := fl_eval ((1 : ℚ) / 2 * 100) 5 (-(47 : ℤ)) 7036874417766400 (by norm_num)
      (by norm_num)
      (by rw [abs_of_pos (by norm_num)]; norm_num)
      (by rw [abs_of_pos (by norm_num)]; norm_num)
      (by norm_num) (by norm_num)
    rw [h']
    norm_num
  rw [hfl2, round_eq, Int.floor_eq_iff]
  norm_num

/-- C6: storage.getData returns Absent (`none`, never throwing) when the
store is empty, when the stored text is unparsable, or when the parsed
document's `version` is not the supported `STORAGE_VERSION`; only a
parsable document with the matching version is returned. -/
theorem getData_spec :
    getData RawStore.empty = none ∧
    getData RawStore.corrupt = none ∧
    ∀ v : JValue,
      (jget v "version" = some (JValue.num STORAGE_VERSION) →
        getData (RawStore.value v) = some v) ∧
      (jget v "version" ≠ some (JValue.num STORAGE_VERSION) →
        getData (RawStore.value v) = none) := by
  refine ⟨rfl, rfl, fun v => ⟨fun hv => ?_, fun hv => ?_⟩⟩
  · simp [getData, hv, STORAGE_VERSION]
  · simp only [getData]
    cases hj : jget v "version" with
    | none => rfl
    | some w =>
      cases w with
      | num n =>
        show (if n = STORAGE_VERSION then some v else none) = none
        rw [if_neg]
        intro hn
        exact hv (by rw [hj, hn])
      | null => rfl
      | bool b => rfl
      | str s => rfl
      | arr elems => rfl
      | obj fields => rfl

/-- Witness for C6: a version-1 document is returned; a version-2 document
is discarded. -/
theorem getData_spec_witness :
    getData (RawStore.value (versionedDoc (JValue.obj []) 0))
      = some (versionedDoc (JValue.obj []) 0) ∧
    getData (RawStore.value (JValue.obj [("version", JValue.num 2)])) = none :=
  ⟨(getData_spec.2.2 _).1 rfl,
   (getData_spec.2.2 _).2 (by simp [jget, List.lookup, STORAGE_VERSION])⟩

theorem toggleHabitList_of_not_mem (hs : List Habit) (id : Int)
    (habsent : ∀ h ∈ hs, h.id ≠ id) : toggleHabitList hs id = hs := by
  induction hs with
  | nil => rfl
  | cons h rest ih =>
    have hh : h.id ≠ id := habsent h (List.mem_cons_self h rest)
    simp only [toggleHabitList, if_neg hh]
    rw [ih (fun h' hmem => habsent h' (List.mem_cons_of_mem h hmem))]

/-- C10: app.toggleHabit's mutation of the habit collection flips only the
`completed` flag of the (first) habit carrying the id: toggling the same id
twice restores the collection exactly, toggling an id carried by no habit
leaves the collection unchanged, and when the first habit carrying the id
is singled out, every other habit is untouched. At the action level the
journal-entry collection is never touched and the habit collection becomes
exactly this mutated list. -/
theorem toggleHabit_involutive (hs : List Habit) (id : Int) :
    toggleHabitList (toggleHabitList hs id) id = hs ∧
    ((∀ h ∈ hs, h.id ≠ id) → toggleHabitList hs id = hs) ∧
    (∀ pre h post, hs = pre ++ h :: post → h.id = id →
      (∀ h' ∈ pre, h'.id ≠ id) →
      toggleHabitList hs id = pre ++ { h with completed := !h.completed } :: post) ∧
    (∀ (st : AppState) (store : RawStore) (now : Int) (ok1 ok2 : Bool),
      st.habits = hs →
      (toggleHabit st store id now ok1 ok2).1.journalEntries = st.journalEntries ∧
      (toggleHabit st store id now ok1 ok2).1.habits = toggleHabitList hs id) := by
  refine ⟨?_, toggleHabitList_of_not_mem hs id, ?_, ?_⟩
  · induction hs with
    | nil => rfl
    | cons h rest ih =>
      obtain ⟨a, b, c, d⟩ := h
      by_cases hh : a = id
      · simp [toggleHabitList, hh]
      · simp only [toggleHabitList, if_neg hh, ih]
  · intro pre h post hsplit hid hpre
    subst hsplit
    induction pre with
    | nil => simp [toggleHabitList, hid]
    | cons p rest ih =>
      have hp : p.id ≠ id := hpre p (List.mem_cons_self p rest)
      simp only [List.cons_append, toggleHabitList, if_neg hp, List.append_eq]
      rw [ih (fun h' hmem => hpre h' (List.mem_cons_of_mem p hmem))]
  · intro st store now ok1 ok2 hhs
    subst hhs
    unfold toggleHabit
    cases hfind : st.habits.find? (fun h => h.id == id) with
    | none =>
      have habsent : ∀ h ∈ st.habits, h.id ≠ id := by
        intro h hmem
        have := List.find?_eq_none.mp hfind h hmem
        simpa using this
      simp [toggleHabitList_of_not_mem st.habits id habsent]
    | some w => simp

/-- Witness for C10 at a concrete two-habit list. -/
theorem toggleHabit_involutive_witness :
    toggleHabitList (toggleHabitList
      [{ id := 1, text := "a", completed := false, createdAt := 0 },
       { id := 2, text := "b", completed := true, createdAt := 0 }] 2) 2
      = [{ id := 1, text := "a", completed := false, createdAt := 0 },
         { id := 2, text := "b", completed := true, createdAt := 0 }] ∧
    toggleHabitList
      [{ id := 1, text := "a", completed := false, createdAt := 0 },
       { id := 2, text := "b", completed := true, createdAt := 0 }] 7
      = [{ id := 1, text := "a", completed := false, createdAt := 0 },
         { id := 2, text := "b", completed := true, createdAt := 0 }] :=
  ⟨(toggleHabit_involutive
      [{ id := 1, text := "a", completed := false, createdAt := 0 },
       { id := 2, text := "b", completed := true, createdAt := 0 }] 2).1,
   (toggleHabit_involutive
      [{ id := 1, text := "a", completed := false, createdAt := 0 },
       { id := 2, text := "b", completed := true, createdAt := 0 }] 7).2.1
     (by decide)⟩

/-- C8: with unique habit ids, app.deleteHabit on a present id (after the
user confirms) removes exactly the habit carrying that id: the remaining
collection is the original with that single habit excised, every other
habit (including its `completed` flag) untouched, and the journal-entry
collection unchanged. -/
theorem deleteHabit_frame (st : AppState) (store : RawStore) (id : Int)
    (now : Int) (ok1 ok2 : Bool) (pre post : List Habit) (h : Habit)
    (hsplit : st.habits = pre ++ h :: post) (hid : h.id = id)
    (huniq : ∀ h' ∈ pre ++ post, h'.id ≠ id) :
    (deleteHabit st store id true now ok1 ok2).1.habits = pre ++ post ∧
    (deleteHabit st store id true now ok1 ok2).1.journalEntries
      = st.journalEntries := by
  have hmem : h ∈ st.habits := by
    rw [hsplit]
    exact List.mem_append_right pre (List.mem_cons_self h post)
  have hfind : (st.habits.find? (fun h' => h'.id == id)).isSome = true :=
    List.find?_isSome.mpr ⟨h, hmem, by simp [hid]⟩
  unfold deleteHabit
  cases hf : st.habits.find? (fun h' => h'.id == id) with
  | none => rw [hf] at hfind; simp at hfind
  | some w =>
    have hpre : ∀ h' ∈ pre, (fun h' => h'.id != id) h' = true := by
      intro h' hm
      simpa using huniq h' (List.mem_append_left post hm)
    have hpost : ∀ h' ∈ post, (fun h' => h'.id != id) h' = true := by
      intro h' hm
      simpa using huniq h' (List.mem_append_right pre hm)
    simp only [if_true]
    constructor
    · show (st.habits.filter (fun h' => h'.id != id)) = pre ++ post
      rw [hsplit, List.filter_append, List.filter_cons,
          List.filter_eq_self.mpr hpre, List.filter_eq_self.mpr hpost]
      simp [hid]
    · rfl

/-- Witness for C8 at a concrete three-habit list, deleting the middle
habit. -/
theorem deleteHabit_frame_witness :
    (deleteHabit
      { journalEntries := [{ id := 9, mood := "Happy", journal := "", timestamp := 0 }],
        habits := [{ id := 1, text := "a", completed := false, createdAt := 0 },
                   { id := 2, text := "b", completed := true, createdAt := 0 },
                   { id := 3, text := "c", completed := false, createdAt := 0 }] }
      RawStore.empty 2 true 0 true true).1.habits
      = [{ id := 1, text := "a", completed := false, createdAt := 0 },
         { id := 3, text := "c", completed := false, createdAt := 0 }] ∧
    (deleteHabit
      { journalEntries := [{ id := 9, mood := "Happy", journal := "", timestamp := 0 }],
        habits := [{ id := 1, text := "a", completed := false, createdAt := 0 },
                   { id := 2, text := "b", completed := true, createdAt := 0 },
                   { id := 3, text := "c", completed := false, createdAt := 0 }] }
      RawStore.empty 2 true 0 true true).1.journalEntries
      = [{ id := 9, mood := "Happy", journal := "", timestamp := 0 }] :=
  deleteHabit_frame _ RawStore.empty 2 0 true true
    [{ id := 1, text := "a", completed := false, createdAt := 0 }]
    [{ id := 3, text := "c", completed := false, createdAt := 0 }]
    { id := 2, text := "b", completed := true, createdAt := 0 }
    rfl rfl (by decide)

/-- C5 counterexample: the payload `{ version: 0, data: {} }` carries both a
`version` field and a `data` field, yet storage.importData rejects it (the
check is JavaScript truthiness of the field values, not their presence, and
the number 0 is falsy); so "import succeeds exactly when the parsed payload
carries both fields" fails at this input. The stored document is left
unchanged, as the failure path promises. -/
theorem importData_presence_not_sufficient :
    (jget (JValue.obj [("version", JValue.num 0), ("data", JValue.obj [])])
      "version").isSome = true ∧
    (jget (JValue.obj [("version", JValue.num 0), ("data", JValue.obj [])])
      "data").isSome = true ∧
    importData (some (JValue.obj [("version", JValue.num 0), ("data", JValue.obj [])]))
      RawStore.empty 0 true = (RawStore.empty, none) :=
  ⟨rfl, rfl, rfl⟩

/-- C5 (amended): import succeeds exactly when the parsed payload carries a
`version` field and a `data` field whose values are both truthy; an
unparsable stream or a failing check rejects, and on any failure the stored
document is left unchanged; on success the imported `data` fully replaces
the current document (rewrapped with the supported version and a fresh
timestamp — no merge with the previous contents). -/
theorem importData_spec (parsed : Option JValue) (store : RawStore) (now : Int) :
    ((importData parsed store now true).2 = none →
      (importData parsed store now true).1 = store) ∧
    (∀ v, parsed = some v →
      ((importData parsed store now true).2.isSome = true ↔
        (truthyO (jget v "version") = true ∧ truthyO (jget v "data") = true))) ∧
    (parsed = none → (importData parsed store now true).2 = none) ∧
    (∀ v d, parsed = some v → jget v "data" = some d →
      truthyO (jget v "version") = true → truthy d = true →
      importData parsed store now true
        = (RawStore.value (versionedDoc d now), some d)) := by
  cases parsed with
  | none => simp [importData]
  | some v =>
    refine ⟨?_, ?_, ?_, ?_⟩
    · simp only [importData]
      by_cases hcond : (truthyO (jget v "version") && truthyO (jget v "data")) = true
      · rw [if_pos hcond]
        cases hdata : jget v "data" with
        | none => intro _; rfl
        | some d => intro hnone; exact absurd hnone (by simp)
      · rw [if_neg hcond]
        intro _; rfl
    · intro w hw
      injection hw with hw
      subst hw
      simp only [importData]
      by_cases hcond : (truthyO (jget v "version") && truthyO (jget v "data")) = true
      · rw [if_pos hcond]
        rw [Bool.and_eq_true] at hcond
        cases hdata : jget v "data" with
        | none => rw [hdata] at hcond; simp [truthyO] at hcond
        | some d => rw [hdata] at hcond; simpa using hcond
      · rw [if_neg hcond]
        rw [Bool.and_eq_true] at hcond
        simpa using hcond
    · intro h; exact absurd h (by simp)
    · intro w d hw hdata hver htr
      injection hw with hw
      subst hw
      simp only [importData, hdata]
      have hcond : (truthyO (jget v "version") && truthyO (some d)) = true := by
        rw [hver]
        simp [truthyO, htr]
      rw [if_pos hcond]
      rfl

/-- Witness for C5 at a concrete well-formed payload imported into a
corrupt store. -/
theorem importData_spec_witness :
    importData (some (versionedDoc (JValue.obj []) 3)) RawStore.corrupt 9 true
      = (RawStore.value (versionedDoc (JValue.obj []) 9), some (JValue.obj [])) :=
  (importData_spec (some (versionedDoc (JValue.obj []) 3)) RawStore.corrupt 9).2.2.2
    (versionedDoc (JValue.obj []) 3) (JValue.obj []) rfl rfl rfl rfl

theorem saveData_success_iff (st : AppState) (store : RawStore) (now : Int)
    (ok1 ok2 : Bool) : (saveData st store now ok1 ok2).2 = (ok1 && ok2) := by
  cases ok1 <;> cases ok2 <;> rfl

/-- C2 counterexample: app.toggleHabit ignores the save result, so when
persisting the document fails the flipped `completed` flag stays in memory:
the habit collection is not rolled back to its prior state. (app.deleteHabit
ignores the save result the same way.) -/
theorem toggleHabit_no_rollback :
    (toggleHabit
      { journalEntries := [], habits := [{ id := 1, text := "run", completed := false, createdAt := 0 }] }
      RawStore.empty 1 0 false false).1
      = { journalEntries := [],
          habits := [{ id := 1, text := "run", completed := true, createdAt := 0 }] } ∧
    (saveData
      { journalEntries := [],
        habits := [{ id := 1, text := "run", completed := true, createdAt := 0 }] }
      RawStore.empty 0 false false).2 = false ∧
    (toggleHabit
      { journalEntries := [], habits := [{ id := 1, text := "run", completed := false, createdAt := 0 }] }
      RawStore.empty 1 0 false false).1
      ≠ { journalEntries := [],
          habits := [{ id := 1, text := "run", completed := false, createdAt := 0 }] } := by
  refine ⟨rfl, rfl, ?_⟩
  decide

/-- C2 (amended): on persistence failure, entry submission and habit
addition roll the in-memory mutation back, leaving both collections exactly
as they were; habit toggle and habit deletion apply their mutation and
ignore the save result, so the flipped flag (resp. the deletion) stays in
memory despite the failure. -/
theorem rollback_spec (st : AppState) (store : RawStore)
    (mood journal text : String) (newId now id : Int) (ok1 ok2 : Bool)
    (hfail : (ok1 && ok2) = false) :
    (handleMoodSubmit st store mood journal newId now ok1 ok2).1 = st ∧
    (addHabit st store text newId now ok1 ok2).1 = st ∧
    (toggleHabit st store id now ok1 ok2).1.habits = toggleHabitList st.habits id ∧
    ((∃ h ∈ st.habits, h.id = id) →
      (deleteHabit st store id true now ok1 ok2).1.habits
        = st.habits.filter (fun h => h.id != id)) := by
  obtain ⟨es, hs⟩ := st
  refine ⟨?_, ?_, ?_, ?_⟩
  · by_cases hm : mood = ""
    · simp [handleMoodSubmit, hm]
    · simp only [handleMoodSubmit, if_neg hm]
      rw [saveData_success_iff, hfail]
      simp
  · by_cases ht : text.trim = ""
    · simp [addHabit, ht]
    · simp only [addHabit, if_neg ht]
      rw [saveData_success_iff, hfail]
      simp
  · unfold toggleHabit
    cases hfind : hs.find? (fun h => h.id == id) with
    | none =>
      have habsent : ∀ h ∈ hs, h.id ≠ id := by
        intro h hmem
        have := List.find?_eq_none.mp hfind h hmem
        simpa using this
      simp [toggleHabitList_of_not_mem hs id habsent]
    | some w => simp
  · intro ⟨h, hmem, hid⟩
    have hfind : (hs.find? (fun h' => h'.id == id)).isSome = true :=
      List.find?_isSome.mpr ⟨h, hmem, by simp [hid]⟩
    unfold deleteHabit
    cases hf : hs.find? (fun h' => h'.id == id) with
    | none => rw [hf] at hfind; simp at hfind
    | some w => simp

/-- Witness for C2 at a concrete one-habit state with a failing first
write. -/
theorem rollback_spec_witness :
    (handleMoodSubmit
      { journalEntries := [], habits := [{ id := 1, text := "run", completed := false, createdAt := 0 }] }
      RawStore.empty "Happy" "hi" 5 10 false true).1
      = { journalEntries := [],
          habits := [{ id := 1, text := "run", completed := false, createdAt := 0 }] } ∧
    (addHabit
      { journalEntries := [], habits := [{ id := 1, text := "run", completed := false, createdAt := 0 }] }
      RawStore.empty "read" 5 10 false true).1
      = { journalEntries := [],
          habits := [{ id := 1, text := "run", completed := false, createdAt := 0 }] } ∧
    (toggleHabit
      { journalEntries := [], habits := [{ id := 1, text := "run", completed := false, createdAt := 0 }] }
      RawStore.empty 1 10 false true).1.habits
      = toggleHabitList [{ id := 1, text := "run", completed := false, createdAt := 0 }] 1 ∧
    ((∃ h ∈ ([{ id := 1, text := "run", completed := false, createdAt := 0 }] : List Habit), h.id = 1) →
      (deleteHabit
        { journalEntries := [], habits := [{ id := 1, text := "run", completed := false, createdAt := 0 }] }
        RawStore.empty 1 true 10 false true).1.habits
        = ([{ id := 1, text := "run", completed := false, createdAt := 0 }] : List Habit).filter
            (fun h => h.id != 1)) :=
  rollback_spec
    { journalEntries := [], habits := [{ id := 1, text := "run", completed := false, createdAt := 0 }] }
    RawStore.empty "Happy" "hi" "read" 5 10 1 false true rfl

theorem decodeEntry_encodeEntry (e : Entry) : decodeEntry (encodeEntry e) = some e := rfl

theorem decodeHabit_encodeHabit (h : Habit) : decodeHabit (encodeHabit h) = some h := rfl

theorem decodeEntries_encodeEntries (es : List Entry) :
    decodeEntries (encodeEntries es) = some es := by
  simp only [decodeEntries, encodeEntries]
  induction es with
  | nil => rfl
  | cons e rest ih =>
    rw [List.map_cons, decodeEntryList, decodeEntry_encodeEntry, ih]

theorem decodeHabits_encodeHabits (hs : List Habit) :
    decodeHabits (encodeHabits hs) = some hs := by
  simp only [decodeHabits, encodeHabits]
  induction hs with
  | nil => rfl
  | cons h rest ih =>
    rw [List.map_cons, decodeHabitList, decodeHabit_encodeHabit, ih]

/-- C7: exporting a stored document and importing the exported stream
succeeds and reproduces an identical set of journal entries and habits:
the re-stored collections decode to exactly the original lists, every id,
mood, text, `completed` flag and timestamp preserved (only the document's
own last-write timestamp is refreshed). -/
theorem export_import_roundtrip (es : List Entry) (hs : List Habit)
    (store : RawStore) (ts now : Int)
    (hstore : store = RawStore.value (versionedDoc (dataObj es hs) ts)) :
    (importData (some (exportData store)) store now true).2.isSome = true ∧
    (importData (some (exportData store)) store now true).1
      = RawStore.value (versionedDoc (dataObj es hs) now) ∧
    decodeEntries (getDataField
      (importData (some (exportData store)) store now true).1 "journalEntries")
      = some es ∧
    decodeHabits (getDataField
      (importData (some (exportData store)) store now true).1 "habits")
      = some hs := by
  subst hstore
  have hexp : exportData (RawStore.value (versionedDoc (dataObj es hs) ts))
      = versionedDoc (dataObj es hs) ts := rfl
  have himp : importData (some (versionedDoc (dataObj es hs) ts))
      (RawStore.value (versionedDoc (dataObj es hs) ts)) now true
      = (RawStore.value (versionedDoc (dataObj es hs) now), some (dataObj es hs)) := rfl
  rw [hexp, himp]
  refine ⟨rfl, rfl, ?_, ?_⟩
  · have hfield : getDataField (RawStore.value (versionedDoc (dataObj es hs) now))
        "journalEntries" = encodeEntries es := by
      simp [getDataField, getData, jget, versionedDoc, dataObj, STORAGE_VERSION,
            List.lookup, truthy, encodeEntries]
    rw [hfield, decodeEntries_encodeEntries]
  · have hfield : getDataField (RawStore.value (versionedDoc (dataObj es hs) now))
        "habits" = encodeHabits hs := by
      simp [getDataField, getData, jget, versionedDoc, dataObj, STORAGE_VERSION,
            List.lookup, truthy, encodeHabits]
    rw [hfield, decodeHabits_encodeHabits]

/-- Witness for C7 at a concrete one-entry, one-habit document. -/
theorem export_import_roundtrip_witness :
    (importData (some (exportData (RawStore.value (versionedDoc
        (dataObj [{ id := 4, mood := "Grateful", journal := "x", timestamp := 44 }]
                 [{ id := 6, text := "walk", completed := true, createdAt := 45 }]) 50))))
      (RawStore.value (versionedDoc
        (dataObj [{ id := 4, mood := "Grateful", journal := "x", timestamp := 44 }]
                 [{ id := 6, text := "walk", completed := true, createdAt := 45 }]) 50))
      77 true).2.isSome = true ∧
    (importData (some (exportData (RawStore.value (versionedDoc
        (dataObj [{ id := 4, mood := "Grateful", journal := "x", timestamp := 44 }]
                 [{ id := 6, text := "walk", completed := true, createdAt := 45 }]) 50))))
      (RawStore.value (versionedDoc
        (dataObj [{ id := 4, mood := "Grateful", journal := "x", timestamp := 44 }]
                 [{ id := 6, text := "walk", completed := true, createdAt := 45 }]) 50))
      77 true).1
      = RawStore.value (versionedDoc
        (dataObj [{ id := 4, mood := "Grateful", journal := "x", timestamp := 44 }]
                 [{ id := 6, text := "walk", completed := true, createdAt := 45 }]) 77) ∧
    decodeEntries (getDataField
      (importData (some (exportData (RawStore.value (versionedDoc
        (dataObj [{ id := 4, mood := "Grateful", journal := "x", timestamp := 44 }]
                 [{ id := 6, text := "walk", completed := true, createdAt := 45 }]) 50))))
      (RawStore.value (versionedDoc
        (dataObj [{ id := 4, mood := "Grateful", journal := "x", timestamp := 44 }]
                 [{ id := 6, text := "walk", completed := true, createdAt := 45 }]) 50))
      77 true).1 "journalEntries")
      = some [{ id := 4, mood := "Grateful", journal := "x", timestamp := 44 }] ∧
    decodeHabits (getDataField
      (importData (some (exportData (RawStore.value (versionedDoc
        (dataObj [{ id := 4, mood := "Grateful", journal := "x", timestamp := 44 }]
                 [{ id := 6, text := "walk", completed := true, createdAt := 45 }]) 50))))
      (RawStore.value (versionedDoc
        (dataObj [{ id := 4, mood := "Grateful", journal := "x", timestamp := 44 }]
                 [{ id := 6, text := "walk", completed := true, createdAt := 45 }]) 50))
      77 true).1 "habits")
      = some [{ id := 6, text := "walk", completed := true, createdAt := 45 }] :=
  export_import_roundtrip
    [{ id := 4, mood := "Grateful", journal := "x", timestamp := 44 }]
    [{ id := 6, text := "walk", completed := true, createdAt := 45 }]
    (RawStore.value (versionedDoc
      (dataObj [{ id := 4, mood := "Grateful", journal := "x", timestamp := 44 }]
               [{ id := 6, text := "walk", completed := true, createdAt := 45 }]) 50))
    50 77 rfl

theorem dayOf_mono {a b : Int} (h : a ≤ b) : dayOf a ≤ dayOf b := by
  unfold dayOf
  exact Int.ediv_le_ediv (by decide) h

theorem insertByTsDesc_perm (e : Entry) (l : List Entry) :
    (insertByTsDesc e l).Perm (e :: l) := by
  induction l with
  | nil => exact List.Perm.refl _
  | cons x xs ih =>
    simp only [insertByTsDesc]
    split
    · exact List.Perm.refl _
    · exact (ih.cons x).trans (List.Perm.swap e x xs)

theorem sortNewestFirst_perm (es : List Entry) : (sortNewestFirst es).Perm es := by
  induction es with
  | nil => exact List.Perm.refl _
  | cons e rest ih => exact (insertByTsDesc_perm e _).trans (ih.cons e)

theorem insertByTsDesc_sorted (e : Entry) (l : List Entry)
    (hl : l.Pairwise (fun a b => b.timestamp ≤ a.timestamp)) :
    (insertByTsDesc e l).Pairwise (fun a b => b.timestamp ≤ a.timestamp) := by
  induction l with
  | nil => simp [insertByTsDesc]
  | cons x xs ih =>
    simp only [insertByTsDesc]
    split
    · refine List.Pairwise.cons ?_ hl
      intro y hy
      rcases List.mem_cons.mp hy with rfl | hy'
      · assumption
      · exact le_trans (List.rel_of_pairwise_cons hl hy') (by assumption)
    · refine List.Pairwise.cons ?_ (ih hl.of_cons)
      intro y hy
      rcases List.mem_cons.mp ((insertByTsDesc_perm e xs).mem_iff.mp hy) with rfl | hy'
      · exact le_of_not_le (by assumption)
      · exact List.rel_of_pairwise_cons hl hy'

theorem sortNewestFirst_sorted (es : List Entry) :
    (sortNewestFirst es).Pairwise (fun a b => b.timestamp ≤ a.timestamp) := by
  induction es with
  | nil => simp [sortNewestFirst]
  | cons e rest ih => exact insertByTsDesc_sorted e _ ih

theorem streakGo_char (ds : List Int) (cur : Int)
    (hdesc : ds.Pairwise (fun a b => b < a)) (hle : ∀ d ∈ ds, d ≤ cur) :
    (∀ i : Nat, i < streakGo ds cur → (cur - (i : Int)) ∈ ds) ∧
    (cur - (streakGo ds cur : Int)) ∉ ds := by
  induction ds generalizing cur with
  | nil =>
    exact ⟨fun i h => absurd h (by simp [streakGo]), by simp⟩
  | cons d rest ih =>
    by_cases hd : d = cur
    · subst hd
      simp only [streakGo, eq_self_iff_true, if_true]
      have hhead : ∀ x ∈ rest, x < d :=
        fun x hx => List.rel_of_pairwise_cons hdesc hx
      have hle' : ∀ x ∈ rest, x ≤ d - 1 := by
        intro x hx
        have := hhead x hx
        omega
      obtain ⟨ih1, ih2⟩ := ih (d - 1) hdesc.of_cons hle'
      constructor
      · intro i hi
        cases i with
        | zero => simp
        | succ j =>
          have hj : j < streakGo rest (d - 1) := by omega
          have hmem := ih1 j hj
          have heq : d - ((j + 1 : Nat) : Int) = (d - 1) - (j : Int) := by
            push_cast
            ring
          rw [heq]
          exact List.mem_cons_of_mem d hmem
      · intro hmem
        have heq : d - ((streakGo rest (d - 1) + 1 : Nat) : Int)
            = (d - 1) - (streakGo rest (d - 1) : Int) := by
          push_cast
          ring
        rw [heq] at hmem
        rcases List.mem_cons.mp hmem with h1 | h2
        · omega
        · exact ih2 h2
    · simp only [streakGo, if_neg hd]
      refine ⟨fun i hi => absurd hi (by omega), ?_⟩
      intro hmem
      rw [show cur - ((0 : Nat) : Int) = cur by simp] at hmem
      rcases List.mem_cons.mp hmem with h1 | h2
      · exact hd h1.symm
      · have hdcur : d ≤ cur := hle d (List.mem_cons_self d rest)
        have hlt : cur < d := List.rel_of_pairwise_cons hdesc h2
        omega

theorem hasEntryOn_iff_mem (es : List Entry) (d : Int) :
    hasEntryOn es d = true ↔ d ∈ es.map (fun e => dayOf e.timestamp) := by
  simp [hasEntryOn, List.any_eq_true]

/-- C1 counterexample: two entries on the same calendar day followed by one
on the previous day. Days 20000 and 19999 both carry at least one entry
(and day 19998 carries none), so the number of consecutive entry-bearing
calendar days walking back from "today" (day 20000) is 2 — but the code
computes a streak of 1: each loop iteration consumes one *entry* while
stepping the expected day back, so the second same-day entry mismatches
"yesterday" and breaks the walk. A second scenario: one future-dated entry
(day 20001) ahead of a today entry makes the walk stop immediately (streak
0) even though today carries an entry. -/
theorem currentStreak_same_day_cex :
    currentStreak
      [{ id := 1, mood := "Happy", journal := "", timestamp := 1728000000100 },
       { id := 2, mood := "Sad", journal := "", timestamp := 1728000000050 },
       { id := 3, mood := "Neutral", journal := "", timestamp := 1727913600010 }]
      1728000005000 = 1 ∧
    hasEntryOn
      [{ id := 1, mood := "Happy", journal := "", timestamp := 1728000000100 },
       { id := 2, mood := "Sad", journal := "", timestamp := 1728000000050 },
       { id := 3, mood := "Neutral", journal := "", timestamp := 1727913600010 }]
      (dayOf 1728000005000) = true ∧
    hasEntryOn
      [{ id := 1, mood := "Happy", journal := "", timestamp := 1728000000100 },
       { id := 2, mood := "Sad", journal := "", timestamp := 1728000000050 },
       { id := 3, mood := "Neutral", journal := "", timestamp := 1727913600010 }]
      (dayOf 1728000005000 - 1) = true ∧
    hasEntryOn
      [{ id := 1, mood := "Happy", journal := "", timestamp := 1728000000100 },
       { id := 2, mood := "Sad", journal := "", timestamp := 1728000000050 },
       { id := 3, mood := "Neutral", journal := "", timestamp := 1727913600010 }]
      (dayOf 1728000005000 - 2) = false ∧
    currentStreak
      [{ id := 4, mood := "Happy", journal := "", timestamp := 1728086400100 },
       { id := 5, mood := "Sad", journal := "", timestamp := 1728000000100 }]
      1728000005000 = 0 ∧
    hasEntryOn
      [{ id := 4, mood := "Happy", journal := "", timestamp := 1728086400100 },
       { id := 5, mood := "Sad", journal := "", timestamp := 1728000000100 }]
      (dayOf 1728000005000) = true := by
  refine ⟨?_, ?_, ?_, ?_, ?_, ?_⟩ <;> decide

/-- C1 (amended): provided no two entries share a calendar day and no entry
is dated after today, the computed streak is exactly the spec's walk: every
day from today back through `streak - 1` days carries an entry, and the day
right past the walk carries none (so the walk stops at the first entryless
day); an empty entry list yields streak 0. Without those provisos the loop
can stop early, because each iteration consumes one entry, not one day (see
the counterexample). -/
theorem currentStreak_consecutive_days (es : List Entry) (now : Int)
    (hdistinct : (es.map (fun e => dayOf e.timestamp)).Pairwise (fun a b => a ≠ b))
    (hpast : ∀ e ∈ es, dayOf e.timestamp ≤ dayOf now) :
    currentStreak [] now = 0 ∧
    (∀ i : Nat, i < currentStreak es now →
      hasEntryOn es (dayOf now - (i : Int)) = true) ∧
    hasEntryOn es (dayOf now - (currentStreak es now : Int)) = false := by
  have hperm : ((sortNewestFirst es).map (fun e => dayOf e.timestamp)).Perm
      (es.map (fun e => dayOf e.timestamp)) :=
    (sortNewestFirst_perm es).map _
  have hsorted : ((sortNewestFirst es).map (fun e => dayOf e.timestamp)).Pairwise
      (fun a b : Int => b ≤ a) :=
    List.Pairwise.map _ (fun _ _ hab => dayOf_mono hab) (sortNewestFirst_sorted es)
  have hne : ((sortNewestFirst es).map (fun e => dayOf e.timestamp)).Pairwise
      (fun a b : Int => a ≠ b) :=
    (hperm.pairwise_iff (fun hab => hab.symm)).mpr hdistinct
  have hdesc : ((sortNewestFirst es).map (fun e => dayOf e.timestamp)).Pairwise
      (fun a b : Int => b < a) :=
    (hsorted.and hne).imp (fun hab => lt_of_le_of_ne hab.1 (Ne.symm hab.2))
  have hle : ∀ d ∈ (sortNewestFirst es).map (fun e => dayOf e.timestamp),
      d ≤ dayOf now := by
    intro d hd
    obtain ⟨e, he, rfl⟩ := List.mem_map.mp (hperm.mem_iff.mp hd)
    exact hpast e he
  obtain ⟨hchar1, hchar2⟩ :=
    streakGo_char ((sortNewestFirst es).map (fun e => dayOf e.timestamp))
      (dayOf now) hdesc hle
  refine ⟨rfl, ?_, ?_⟩
  · intro i hi
    rw [hasEntryOn_iff_mem]
    exact hperm.mem_iff.mp (hchar1 i hi)
  · rw [← Bool.not_eq_true, hasEntryOn_iff_mem]
    intro hmem
    exact hchar2 (hperm.mem_iff.mpr hmem)

/-- Witness for C1 at two entries on distinct consecutive days: the
hypotheses hold and the characterization applies with a streak of 2. -/
theorem currentStreak_consecutive_days_witness :
    currentStreak [] 1728000005000 = 0 ∧
    (∀ i : Nat, i < currentStreak
      [{ id := 1, mood := "Happy", journal := "", timestamp := 1728000000100 },
       { id := 3, mood := "Neutral", journal := "", timestamp := 1727913600010 }]
      1728000005000 →
      hasEntryOn
        [{ id := 1, mood := "Happy", journal := "", timestamp := 1728000000100 },
         { id := 3, mood := "Neutral", journal := "", timestamp := 1727913600010 }]
        (dayOf 1728000005000 - (i : Int)) = true) ∧
    hasEntryOn
      [{ id := 1, mood := "Happy", journal := "", timestamp := 1728000000100 },
       { id := 3, mood := "Neutral", journal := "", timestamp := 1727913600010 }]
      (dayOf 1728000005000 - (currentStreak
        [{ id := 1, mood := "Happy", journal := "", timestamp := 1728000000100 },
         { id := 3, mood := "Neutral", journal := "", timestamp := 1727913600010 }]
        1728000005000 : Int)) = false :=
  currentStreak_consecutive_days
    [{ id := 1, mood := "Happy", journal := "", timestamp := 1728000000100 },
     { id := 3, mood := "Neutral", journal := "", timestamp := 1727913600010 }]
    1728000005000 (by decide) (by decide)

end MindfulMoments
